import Mathlib

/-!
Verification of the quiz scoring and interpretation engine of
`gogol-quiz-bot` (files `quiz_logic.py` and `bot.py`).

The embedding follows the source:

* `quiz_logic.calculate_result` sorts the four-category score dictionary
  by score descending (Python's `sorted` is stable, and `reverse=True`
  only reverses the comparison, so ties keep dictionary insertion order,
  which is the declaration order M, S, P, C from `bot.start`), then
  branches: all tied → NEUTRAL; top three tied → POLY; gap between the
  top two ≤ 2 → MIXED with interpolated display names; otherwise the
  dominant category's own entry.
* `bot.handle_answer` normalises the raw text (`.upper().strip()`),
  checks membership in the current question's option keys, and on
  acceptance looks up the option's `score_type`, increments that
  counter when the value is truthy, and advances `question_num` by 1.

The interpretation table and display-name table come from the data file
`script.json`; they are modelled as abstract parameters (`Interpretations`
and a name function `Cat → String`), since the classifier only reads them.
The chat-transport layer (message sending, keyboards, persistence) is out
of scope per the specification and is not modelled.
-/

/-- The fixed category set, in declaration order M, S, P, C
(`bot.py` line 88: `{"M": 0, "S": 0, "P": 0, "C": 0}`). -/
inductive Cat : Type
  | M | S | P | C
deriving DecidableEq, Repr

/-- Declaration index of a category: the position of its key in the
score dictionary's insertion order. -/
def catIdx : Cat → Nat
  | .M => 0
  | .S => 1
  | .P => 2
  | .C => 3

/-- The per-session score dictionary `{"M": ..., "S": ..., "P": ..., "C": ...}`. -/
structure Tally : Type where
  M : Nat
  S : Nat
  P : Nat
  C : Nat
deriving DecidableEq, Repr

/-- `scores.items()`: the key/value pairs in dictionary insertion order. -/
def Tally.items (t : Tally) : List (Cat × Nat) :=
  [(Cat.M, t.M), (Cat.S, t.S), (Cat.P, t.P), (Cat.C, t.C)]

/-- Sum of the four counters. -/
def Tally.sum (t : Tally) : Nat := t.M + t.S + t.P + t.C

/-- Stable insertion into a list sorted by score descending: the new pair
goes in front of the first element whose score is ≤ its own, so an element
earlier in the original list stays in front of later elements with equal
score.  Models one step of Python's stable `sorted(..., reverse=True)`. -/
def insertDesc (x : Cat × Nat) : List (Cat × Nat) → List (Cat × Nat)
  | [] => [x]
  | y :: ys => if y.2 ≤ x.2 then x :: y :: ys else y :: insertDesc x ys

/-- Stable sort by score descending:
`sorted(scores.items(), key=lambda item: item[1], reverse=True)`
(`quiz_logic.py` line 17). -/
def sortDesc : List (Cat × Nat) → List (Cat × Nat)
  | [] => []
  | x :: xs => insertDesc x (sortDesc xs)

/-- `sorted_scores` for a tally. -/
def ranked (t : Tally) : List (Cat × Nat) :=
  sortDesc t.items

/-- `sorted_scores[i]` (the list always has four elements, so the default
is never reached). -/
def top (t : Tally) (i : Nat) : Cat × Nat :=
  (ranked t).getD i (Cat.M, 0)

/-- `max_score = sorted_scores[0][1]` (`quiz_logic.py` line 19). -/
def maxScore (t : Tally) : Nat := (top t 0).2

/-- The interpretation table loaded from `script.json`: a title and body
for NEUTRAL, POLY and each category key, and a title template plus body
for MIXED.  `mixedTemplate` models
`title_template.format(Dominant_Type=..., Secondary_Type=...)`. -/
structure Interpretations : Type where
  neutralTitle : String
  neutralText : String
  polyTitle : String
  polyText : String
  mixedTemplate : String → String → String
  mixedText : String
  catTitle : Cat → String
  catText : Cat → String

/-- `quiz_logic.calculate_result(scores)` (lines 15–51), parameterised by
the interpretation table and the `type_names` display-name table.
Returns the pair `(result_title, interpretation_text)`. -/
def calculate_result (I : Interpretations) (type_names : Cat → String)
    (scores : Tally) : String × String :=
  let sorted_scores := ranked scores
  let max_score := (sorted_scores.getD 0 (Cat.M, 0)).2
  if sorted_scores.all (fun p => p.2 == max_score) then
    (I.neutralTitle, I.neutralText)
  else if (sorted_scores.getD 0 (Cat.M, 0)).2 = (sorted_scores.getD 1 (Cat.M, 0)).2 ∧
      (sorted_scores.getD 1 (Cat.M, 0)).2 = (sorted_scores.getD 2 (Cat.M, 0)).2 then
    (I.polyTitle, I.polyText)
  else
    let dominant_type := (sorted_scores.getD 0 (Cat.M, 0)).1
    let second_type := (sorted_scores.getD 1 (Cat.M, 0)).1
    let second_score := (sorted_scores.getD 1 (Cat.M, 0)).2
    if max_score - second_score ≤ 2 then
      (I.mixedTemplate (type_names dominant_type) (type_names second_type), I.mixedText)
    else
      (I.catTitle dominant_type, I.catText dominant_type)

/-- `insertDesc` permutes: inserting is adding the element somewhere. -/
theorem insertDesc_perm (x : Cat × Nat) (l : List (Cat × Nat)) :
    (insertDesc x l).Perm (x :: l) := by
  induction l with
  | nil => simp [insertDesc]
  | cons y ys ih =>
      by_cases h : y.2 ≤ x.2
      · simp [insertDesc, h]
      · simp only [insertDesc, if_neg h]
        exact (ih.cons y).trans (List.Perm.swap x y ys)

/-- `sortDesc` permutes its input. -/
theorem sortDesc_perm (l : List (Cat × Nat)) : (sortDesc l).Perm l := by
  induction l with
  | nil => simp [sortDesc]
  | cons x xs ih => exact (insertDesc_perm x (sortDesc xs)).trans (ih.cons x)

/-- The ranked list is a permutation of the dictionary items. -/
theorem ranked_perm (t : Tally) : (ranked t).Perm t.items :=
  sortDesc_perm t.items

/-- The ranked list always has exactly four entries. -/
theorem ranked_length (t : Tally) : (ranked t).length = 4 :=
  (ranked_perm t).length_eq

/-- The ranked list can be decomposed into its four entries. -/
theorem ranked_four (t : Tally) :
    ∃ a b c d, ranked t = [a, b, c, d] := by
  have h := ranked_length t
  match e : ranked t with
  | [a, b, c, d] => exact ⟨a, b, c, d, rfl⟩
  | [] | [_] | [_, _] | [_, _, _] => rw [e] at h; simp at h
  | _ :: _ :: _ :: _ :: _ :: _ => rw [e] at h; simp at h

/-- The ranked list is sorted by score descending and, on equal scores,
keeps the declaration order of the categories (stability of the sort,
with `reverse=True` only flipping the comparison). -/
theorem ranked_sorted_stable (t : Tally) :
    (ranked t).Pairwise
      (fun x y => y.2 ≤ x.2 ∧ (x.2 = y.2 → catIdx x.1 < catIdx y.1)) := by
  obtain ⟨m, s, p, c⟩ := t
  simp only [ranked, Tally.items, sortDesc, insertDesc]
  split_ifs <;> simp only [insertDesc] <;> split_ifs <;> simp only [insertDesc] <;>
    split_ifs <;> simp [List.pairwise_cons, catIdx] <;> omega

/-- The scores in the ranked list are a permutation of the four tally
counters. -/
theorem ranked_snds_perm (t : Tally) (a b c d : Cat × Nat)
    (e : ranked t = [a, b, c, d]) :
    ([a.2, b.2, c.2, d.2] : List Nat).Perm [t.M, t.S, t.P, t.C] := by
  have h := (ranked_perm t).map Prod.snd
  rw [e] at h
  simpa [Tally.items] using h

/-- The four ranked scores are all equal exactly when the four tally
counters are all equal. -/
theorem allEq_iff (t : Tally) (a b c d : Cat × Nat)
    (e : ranked t = [a, b, c, d]) :
    (a.2 = b.2 ∧ b.2 = c.2 ∧ c.2 = d.2) ↔
      (t.M = t.S ∧ t.S = t.P ∧ t.P = t.C) := by
  have h := ranked_snds_perm t a b c d e
  constructor
  · rintro ⟨h1, h2, h3⟩
    have hM : t.M ∈ [a.2, b.2, c.2, d.2] := h.mem_iff.mpr (by simp)
    have hS : t.S ∈ [a.2, b.2, c.2, d.2] := h.mem_iff.mpr (by simp)
    have hP : t.P ∈ [a.2, b.2, c.2, d.2] := h.mem_iff.mpr (by simp)
    have hC : t.C ∈ [a.2, b.2, c.2, d.2] := h.mem_iff.mpr (by simp)
    simp at hM hS hP hC
    omega
  · rintro ⟨h1, h2, h3⟩
    have ha : a.2 ∈ [t.M, t.S, t.P, t.C] := h.mem_iff.mp (by simp)
    have hb : b.2 ∈ [t.M, t.S, t.P, t.C] := h.mem_iff.mp (by simp)
    have hc : c.2 ∈ [t.M, t.S, t.P, t.C] := h.mem_iff.mp (by simp)
    have hd : d.2 ∈ [t.M, t.S, t.P, t.C] := h.mem_iff.mp (by simp)
    simp at ha hb hc hd
    omega

/-- `calculate_result` expressed over the four ranked entries: the
branch conditions of `quiz_logic.py` lines 21, 26 and 36 reduce to
comparisons of the ranked scores. -/
theorem calculate_result_shape (I : Interpretations) (tn : Cat → String)
    (t : Tally) (a b c d : Cat × Nat) (e : ranked t = [a, b, c, d]) :
    calculate_result I tn t =
      if a.2 = b.2 ∧ b.2 = c.2 ∧ c.2 = d.2 then (I.neutralTitle, I.neutralText)
      else if a.2 = b.2 ∧ b.2 = c.2 then (I.polyTitle, I.polyText)
      else if a.2 - b.2 ≤ 2 then
        (I.mixedTemplate (tn a.1) (tn b.1), I.mixedText)
      else (I.catTitle a.1, I.catText a.1) := by
  simp only [calculate_result, e, List.getD_cons_zero, List.getD_cons_succ, List.all_cons,
    List.all_nil, Bool.and_true, Bool.and_eq_true, beq_iff_eq, true_and]
  split_ifs <;> first | rfl | omega

/-- The ranked entry at index `i` is literally the corresponding entry of
the four-element decomposition. -/
theorem top_eq_of_ranked (t : Tally) (a b c d : Cat × Nat)
    (e : ranked t = [a, b, c, d]) :
    top t 0 = a ∧ top t 1 = b ∧ top t 2 = c ∧ top t 3 = d := by
  simp [top, e]

/-- State-threaded form of `calculate_result`: the score dictionary is
passed by reference in Python, so the final dictionary state is returned
alongside the result.  No statement of `calculate_result` (lines 15–51)
writes into `scores`; every branch returns with the dictionary as
received. -/
def calculate_result_st (I : Interpretations) (type_names : Cat → String)
    (scores : Tally) : (String × String) × Tally :=
  let sorted_scores := ranked scores
  let max_score := (sorted_scores.getD 0 (Cat.M, 0)).2
  if sorted_scores.all (fun p => p.2 == max_score) then
    ((I.neutralTitle, I.neutralText), scores)
  else if (sorted_scores.getD 0 (Cat.M, 0)).2 = (sorted_scores.getD 1 (Cat.M, 0)).2 ∧
      (sorted_scores.getD 1 (Cat.M, 0)).2 = (sorted_scores.getD 2 (Cat.M, 0)).2 then
    ((I.polyTitle, I.polyText), scores)
  else
    let dominant_type := (sorted_scores.getD 0 (Cat.M, 0)).1
    let second_type := (sorted_scores.getD 1 (Cat.M, 0)).1
    let second_score := (sorted_scores.getD 1 (Cat.M, 0)).2
    if max_score - second_score ≤ 2 then
      ((I.mixedTemplate (type_names dominant_type) (type_names second_type), I.mixedText),
        scores)
    else
      ((I.catTitle dominant_type, I.catText dominant_type), scores)

/-- A concrete interpretation table used to witness the classifier
theorems on concrete tallies. -/
def demoNames : Cat → String
  | .M => "TypeEm"
  | .S => "TypeEs"
  | .P => "TypeP"
  | .C => "TypeC"

/-- A concrete interpretation table with distinguishable entries. -/
def demoInterp : Interpretations where
  neutralTitle := "neutral title"
  neutralText := "neutral body"
  polyTitle := "poly title"
  polyText := "poly body"
  mixedTemplate := fun dom sec => "mixed " ++ dom ++ " with " ++ sec
  mixedText := "mixed body"
  catTitle := fun c => "own title " ++ demoNames c
  catText := fun c => "own body " ++ demoNames c

/-- C5: the classifier's first step ranks the categories by score
descending, with ties kept in the fixed declaration order M, S, P, C: the
ranked list is a permutation of the tally items and is pairwise ordered
by descending score, equal scores appearing in declaration order. -/
theorem quiz_ranking_stable_desc (t : Tally) :
    (ranked t).Perm t.items ∧
    (ranked t).Pairwise
      (fun x y => y.2 ≤ x.2 ∧ (x.2 = y.2 → catIdx x.1 < catIdx y.1)) :=
  ⟨ranked_perm t, ranked_sorted_stable t⟩

/-- C6: when every category's score equals the maximum score (all four
counters equal), the classifier returns the NEUTRAL interpretation. -/
theorem quiz_neutral_of_all_max (I : Interpretations) (tn : Cat → String)
    (t : Tally) (h : t.M = t.S ∧ t.S = t.P ∧ t.P = t.C) :
    calculate_result I tn t = (I.neutralTitle, I.neutralText) := by
  obtain ⟨a, b, c, d, e⟩ := ranked_four t
  rw [calculate_result_shape I tn t a b c d e,
    if_pos ((allEq_iff t a b c d e).mpr h)]

/-- C6 witness: the tally {M:4,S:4,P:4,C:4} yields the neutral result. -/
theorem quiz_neutral_of_all_max_witness :
    ((⟨4, 4, 4, 4⟩ : Tally).M = (⟨4, 4, 4, 4⟩ : Tally).S ∧
      (⟨4, 4, 4, 4⟩ : Tally).S = (⟨4, 4, 4, 4⟩ : Tally).P ∧
      (⟨4, 4, 4, 4⟩ : Tally).P = (⟨4, 4, 4, 4⟩ : Tally).C) ∧
    calculate_result demoInterp demoNames ⟨4, 4, 4, 4⟩ =
      (demoInterp.neutralTitle, demoInterp.neutralText) :=
  ⟨by decide, quiz_neutral_of_all_max demoInterp demoNames ⟨4, 4, 4, 4⟩ (by decide)⟩

/-- C7: when not all four counters are equal but the top three ranked
scores coincide, the classifier returns the POLY interpretation. -/
theorem quiz_poly_of_top_three_tied (I : Interpretations) (tn : Cat → String)
    (t : Tally) (hne : ¬(t.M = t.S ∧ t.S = t.P ∧ t.P = t.C))
    (h3 : (top t 0).2 = (top t 1).2 ∧ (top t 1).2 = (top t 2).2) :
    calculate_result I tn t = (I.polyTitle, I.polyText) := by
  obtain ⟨a, b, c, d, e⟩ := ranked_four t
  obtain ⟨ha, hb, hc, -⟩ := top_eq_of_ranked t a b c d e
  rw [ha, hb, hc] at h3
  rw [calculate_result_shape I tn t a b c d e,
    if_neg (fun hall => hne ((allEq_iff t a b c d e).mp hall)), if_pos h3]

/-- C7 witness: the tally {M:5,S:5,P:5,C:1} yields the polymodal result. -/
theorem quiz_poly_of_top_three_tied_witness :
    (¬((⟨5, 5, 5, 1⟩ : Tally).M = (⟨5, 5, 5, 1⟩ : Tally).S ∧
        (⟨5, 5, 5, 1⟩ : Tally).S = (⟨5, 5, 5, 1⟩ : Tally).P ∧
        (⟨5, 5, 5, 1⟩ : Tally).P = (⟨5, 5, 5, 1⟩ : Tally).C)) ∧
    ((top ⟨5, 5, 5, 1⟩ 0).2 = (top ⟨5, 5, 5, 1⟩ 1).2 ∧
      (top ⟨5, 5, 5, 1⟩ 1).2 = (top ⟨5, 5, 5, 1⟩ 2).2) ∧
    calculate_result demoInterp demoNames ⟨5, 5, 5, 1⟩ =
      (demoInterp.polyTitle, demoInterp.polyText) :=
  ⟨by decide, by decide,
    quiz_poly_of_top_three_tied demoInterp demoNames ⟨5, 5, 5, 1⟩ (by decide) (by decide)⟩

/-- C1: when neither all four counters nor the top three ranked scores
tie, and the gap between the top two ranked scores is at most 2
(including a gap of 0 with exactly the top two tied), the classifier
returns the MIXED interpretation, its title the template applied to the
display names of the first- and second-ranked categories. -/
theorem quiz_mixed_of_small_gap (I : Interpretations) (tn : Cat → String)
    (t : Tally) (hne : ¬(t.M = t.S ∧ t.S = t.P ∧ t.P = t.C))
    (h3 : ¬((top t 0).2 = (top t 1).2 ∧ (top t 1).2 = (top t 2).2))
    (hgap : (top t 0).2 - (top t 1).2 ≤ 2) :
    calculate_result I tn t =
      (I.mixedTemplate (tn (top t 0).1) (tn (top t 1).1), I.mixedText) := by
  obtain ⟨a, b, c, d, e⟩ := ranked_four t
  obtain ⟨ha, hb, hc, -⟩ := top_eq_of_ranked t a b c d e
  rw [ha, hb, hc] at h3
  rw [ha, hb] at hgap ⊢
  rw [calculate_result_shape I tn t a b c d e,
    if_neg (fun hall => hne ((allEq_iff t a b c d e).mp hall)), if_neg h3, if_pos hgap]

/-- C1 witness: the tally {M:5,S:5,P:1,C:1} (exactly the top two tied,
gap 0) classifies as MIXED with M's and S's display names interpolated. -/
theorem quiz_mixed_of_small_gap_witness :
    (¬((⟨5, 5, 1, 1⟩ : Tally).M = (⟨5, 5, 1, 1⟩ : Tally).S ∧
        (⟨5, 5, 1, 1⟩ : Tally).S = (⟨5, 5, 1, 1⟩ : Tally).P ∧
        (⟨5, 5, 1, 1⟩ : Tally).P = (⟨5, 5, 1, 1⟩ : Tally).C)) ∧
    (¬((top ⟨5, 5, 1, 1⟩ 0).2 = (top ⟨5, 5, 1, 1⟩ 1).2 ∧
        (top ⟨5, 5, 1, 1⟩ 1).2 = (top ⟨5, 5, 1, 1⟩ 2).2)) ∧
    ((top ⟨5, 5, 1, 1⟩ 0).2 - (top ⟨5, 5, 1, 1⟩ 1).2 ≤ 2) ∧
    calculate_result demoInterp demoNames ⟨5, 5, 1, 1⟩ =
      (demoInterp.mixedTemplate (demoNames (top ⟨5, 5, 1, 1⟩ 0).1)
        (demoNames (top ⟨5, 5, 1, 1⟩ 1).1), demoInterp.mixedText) :=
  ⟨by decide, by decide, by decide,
    quiz_mixed_of_small_gap demoInterp demoNames ⟨5, 5, 1, 1⟩
      (by decide) (by decide) (by decide)⟩

/-- C8: when the gap between the top two ranked scores is strictly
greater than 2, the classifier returns the top-ranked category's own
title and body, with no interpolation.  The earlier branch conditions
fail automatically: a gap above 2 rules out both the all-tied and the
top-three-tied cases. -/
theorem quiz_dominant_of_large_gap (I : Interpretations) (tn : Cat → String)
    (t : Tally) (hgap : 2 < (top t 0).2 - (top t 1).2) :
    calculate_result I tn t = (I.catTitle (top t 0).1, I.catText (top t 0).1) := by
  obtain ⟨a, b, c, d, e⟩ := ranked_four t
  obtain ⟨ha, hb, -, -⟩ := top_eq_of_ranked t a b c d e
  rw [ha, hb] at hgap
  rw [ha]
  have hab : ¬ a.2 = b.2 := by omega
  rw [calculate_result_shape I tn t a b c d e,
    if_neg (fun hall => hab hall.1), if_neg (fun h3 => hab h3.1),
    if_neg (by omega)]

/-- C8 witness: the tally {M:8,S:2,P:2,C:4} (gap 8 − 4 = 4 > 2) yields
M's own title and body. -/
theorem quiz_dominant_of_large_gap_witness :
    (2 < (top ⟨8, 2, 2, 4⟩ 0).2 - (top ⟨8, 2, 2, 4⟩ 1).2) ∧
    calculate_result demoInterp demoNames ⟨8, 2, 2, 4⟩ =
      (demoInterp.catTitle (top ⟨8, 2, 2, 4⟩ 0).1,
        demoInterp.catText (top ⟨8, 2, 2, 4⟩ 0).1) :=
  ⟨by decide, quiz_dominant_of_large_gap demoInterp demoNames ⟨8, 2, 2, 4⟩ (by decide)⟩

/-- C9: the classifier does not mutate its input: threading the score
dictionary through the call returns it unchanged, and the computed pair
agrees with `calculate_result`. -/
theorem quiz_classifier_preserves_tally (I : Interpretations)
    (tn : Cat → String) (t : Tally) :
    (calculate_result_st I tn t).2 = t ∧
    (calculate_result_st I tn t).1 = calculate_result I tn t := by
  constructor <;>
    · simp only [calculate_result_st, calculate_result]
      split_ifs <;> rfl

/-- An answer option of a question in `script.json`: a key (a letter),
display text, and the `score_type` it scores toward. -/
structure QOption : Type where
  key : String
  text : String
  score_type : String
deriving DecidableEq, Repr

/-- A question of `script.json`: prompt text and its option list. -/
structure Question : Type where
  text : String
  options : List QOption
deriving DecidableEq, Repr

/-- Per-user session data held in `context.user_data`:
`question_num` and the running `scores` dictionary.  An absent session
(`question_num` missing, e.g. after a restart) is modelled as `none`
at the caller. -/
structure Session : Type where
  question_num : Nat
  scores : Tally
deriving DecidableEq, Repr

/-- `.upper()`: uppercase every character of the text
(modelled character-wise, as Python does for ASCII input). -/
def pyUpper (s : String) : String := ⟨s.data.map Char.toUpper⟩

/-- `.strip()`: remove leading and trailing whitespace. -/
def pyStrip (s : String) : String :=
  ⟨((s.data.dropWhile Char.isWhitespace).reverse.dropWhile Char.isWhitespace).reverse⟩

/-- `update.message.text.upper().strip()` (`bot.py` line 152). -/
def pyNormalize (raw : String) : String := pyStrip (pyUpper raw)

/-- First option with the given key, returning its `score_type`
(the loop of `get_score_type_for_key`, `bot.py` lines 74–77). -/
def findScoreType : List QOption → String → Option String
  | [], _ => none
  | o :: os, k => if o.key = k then some o.score_type else findScoreType os k

/-- `bot.get_score_type_for_key(q_num, answer_key)` (lines 71–77). -/
def get_score_type_for_key (questions : List Question) (q_num : Nat)
    (answer_key : String) : Option String :=
  findScoreType (questions.getD q_num ⟨"", []⟩).options answer_key

/-- `[option['key'] for option in questions[q_num]['options']]`
(`bot.py` line 159). -/
def valid_keys (questions : List Question) (q_num : Nat) : List String :=
  ((questions.getD q_num ⟨"", []⟩).options).map (fun o => o.key)

/-- Outcome of the answer validator (§4.2): either a validated
(normalised) key or a rejection carrying the currently valid keys. -/
inductive Validation : Type
  | valid (key : String)
  | rejected (valid_keys : List String)
deriving DecidableEq, Repr

/-- The validation phase of `bot.handle_answer` (lines 152–166):
normalise the raw text with `.upper().strip()` and check membership in
the current question's option keys. -/
def validate_answer (questions : List Question) (q_num : Nat)
    (raw : String) : Validation :=
  let answer_key := pyNormalize raw
  if answer_key ∈ valid_keys questions q_num then .valid answer_key
  else .rejected (valid_keys questions q_num)

/-- Result of one `handle_answer` call.  `lost` is the missing-session
reply (lines 155–157); `rejected` carries the reported valid keys
(lines 162–166); `accepted` is the normal path (lines 168–182);
`keyError` models the uncaught `KeyError` Python would raise on
`scores[profile_type] += 1` when `profile_type` is a truthy string that
is not one of the four dictionary keys. -/
inductive Outcome : Type
  | lost
  | rejected (valid_keys : List String)
  | accepted
  | keyError
deriving DecidableEq, Repr

/-- `scores[profile_type] += 1`: increment the counter for the given
dictionary key, or fail (KeyError) when the key is not in the
dictionary. -/
def bumpScore (t : Tally) (s : String) : Option Tally :=
  if s = "M" then some { t with M := t.M + 1 }
  else if s = "S" then some { t with S := t.S + 1 }
  else if s = "P" then some { t with P := t.P + 1 }
  else if s = "C" then some { t with C := t.C + 1 }
  else none

/-- Increment exactly one category's counter. -/
def bumpCat (t : Tally) : Cat → Tally
  | .M => { t with M := t.M + 1 }
  | .S => { t with S := t.S + 1 }
  | .P => { t with P := t.P + 1 }
  | .C => { t with C := t.C + 1 }

/-- `bot.handle_answer` (lines 147–182), up to its state mutation: the
message sending and the dispatch to `ask_question`/`show_result` belong
to the excluded transport layer.  Returns the outcome together with the
session state after the call. -/
def handle_answer (questions : List Question) (user_data : Option Session)
    (raw : String) : Outcome × Option Session :=
  let answer_key := pyNormalize raw
  match user_data with
  | none => (.lost, none)
  | some sess =>
    let q_num := sess.question_num
    match validate_answer questions q_num raw with
    | .rejected vk => (.rejected vk, some sess)
    | .valid _ =>
      match get_score_type_for_key questions q_num answer_key with
      | some profile_type =>
        if profile_type = "" then
          (.accepted, some { sess with question_num := q_num + 1 })
        else
          match bumpScore sess.scores profile_type with
          | some scores' =>
            (.accepted, some ⟨q_num + 1, scores'⟩)
          | none => (.keyError, some sess)
      | none => (.accepted, some { sess with question_num := q_num + 1 })

/-- Run `handle_answer` over a sequence of raw user messages, counting
the accepted answers; a rejected message leaves the session as the
handler returned it. -/
def run_answers (questions : List Question) :
    Option Session → List String → Option Session × Nat
  | ud, [] => (ud, 0)
  | ud, r :: rs =>
    match handle_answer questions ud r with
    | (.accepted, ud') =>
      let rest := run_answers questions ud' rs
      (rest.1, rest.2 + 1)
    | (_, ud') => run_answers questions ud' rs

/-- Well-formed quiz data per the data model: every option's
`score_type` is one of the four category codes.  (`script.json` is not
part of the sources; this captures the specification's requirement that
each option carries a category code of the fixed set.) -/
def wf_questions (questions : List Question) : Prop :=
  ∀ q ∈ questions, ∀ o ∈ q.options,
    o.score_type = "M" ∨ o.score_type = "S" ∨ o.score_type = "P" ∨ o.score_type = "C"

/-- If a key occurs among the option keys, the `score_type` loop finds
the first option with that key. -/
theorem findScoreType_eq_some_of_mem (opts : List QOption) (k : String)
    (h : k ∈ opts.map (fun o => o.key)) :
    ∃ o ∈ opts, o.key = k ∧ findScoreType opts k = some o.score_type := by
  induction opts with
  | nil => simp at h
  | cons o os ih =>
    by_cases hk : o.key = k
    · exact ⟨o, by simp, hk, by simp [findScoreType, hk]⟩
    · have h' : k ∈ os.map (fun o => o.key) := by
        simp only [List.map_cons, List.mem_cons] at h
        rcases h with h | h
        · exact absurd h.symm hk
        · exact h
      obtain ⟨o', ho', hk', hf⟩ := ih h'
      exact ⟨o', by simp [ho'], hk', by simp [findScoreType, hk, hf]⟩

/-- If the current question has any valid key, the indexed question is a
real entry of the question list. -/
theorem getD_mem_of_valid_keys_ne (questions : List Question) (q_num : Nat)
    (h : valid_keys questions q_num ≠ []) :
    questions.getD q_num ⟨"", []⟩ ∈ questions := by
  by_cases hq : q_num < questions.length
  · rw [List.getD_eq_getElem _ _ hq]
    exact List.getElem_mem hq
  · exfalso
    apply h
    simp only [valid_keys, List.getD_eq_default _ _ (Nat.le_of_not_lt hq)]
    simp

/-- `bumpScore` at a category code is `bumpCat`. -/
theorem bumpScore_eq_bumpCat (t : Tally) (s : String)
    (hs : s = "M" ∨ s = "S" ∨ s = "P" ∨ s = "C") :
    ∃ c : Cat, bumpScore t s = some (bumpCat t c) := by
  rcases hs with h | h | h | h <;> subst h
  · exact ⟨Cat.M, by simp [bumpScore, bumpCat]⟩
  · exact ⟨Cat.S, by simp [bumpScore, bumpCat]⟩
  · exact ⟨Cat.P, by simp [bumpScore, bumpCat]⟩
  · exact ⟨Cat.C, by simp [bumpScore, bumpCat]⟩

/-- Under well-formed quiz data, one `handle_answer` call on a live
session either accepts the answer — incrementing exactly one category
and advancing the index by 1 — or rejects it reporting the valid keys
and leaving the session untouched. -/
theorem handle_answer_cases (questions : List Question)
    (hWF : wf_questions questions) (sess : Session) (raw : String) :
    (∃ c : Cat, handle_answer questions (some sess) raw
        = (.accepted, some ⟨sess.question_num + 1, bumpCat sess.scores c⟩)) ∨
    handle_answer questions (some sess) raw
        = (.rejected (valid_keys questions sess.question_num), some sess) := by
  by_cases hmem : pyNormalize raw ∈ valid_keys questions sess.question_num
  · left
    have hne : valid_keys questions sess.question_num ≠ [] := by
      intro hnil
      rw [hnil] at hmem
      exact (List.not_mem_nil _) hmem
    obtain ⟨o, ho, hko, hf⟩ :=
      findScoreType_eq_some_of_mem _ _ (by simpa only [valid_keys] using hmem)
    have hs : o.score_type = "M" ∨ o.score_type = "S" ∨ o.score_type = "P" ∨
        o.score_type = "C" :=
      hWF _ (getD_mem_of_valid_keys_ne questions sess.question_num hne) o ho
    obtain ⟨c, hb⟩ := bumpScore_eq_bumpCat sess.scores o.score_type hs
    have hsne : ¬ o.score_type = "" := by
      rcases hs with h | h | h | h <;> simp [h]
    refine ⟨c, ?_⟩
    simp only [handle_answer, validate_answer, if_pos hmem, get_score_type_for_key, hf,
      if_neg hsne, hb]
  · right
    simp only [handle_answer, validate_answer, if_neg hmem]

/-- Incrementing one category raises the tally sum by exactly 1. -/
theorem bumpCat_sum (t : Tally) (c : Cat) :
    Tally.sum (bumpCat t c) = Tally.sum t + 1 := by
  cases c <;> simp [bumpCat, Tally.sum] <;> omega

/-- Concrete well-formed quiz data used by the witnesses. -/
def demoQuestions : List Question :=
  [⟨"first question", [⟨"A", "first option", "M"⟩, ⟨"B", "second option", "S"⟩]⟩,
   ⟨"second question", [⟨"A", "first option", "P"⟩, ⟨"B", "second option", "C"⟩]⟩]

/-- Concrete quiz data whose only option carries an empty `score_type`. -/
def demoFalsyQuestions : List Question :=
  [⟨"degenerate question", [⟨"A", "unscored option", ""⟩]⟩]

/-- C2: for well-formed quiz data, an accepted answer increments exactly
one category's counter by 1 (raising the tally sum by 1) and advances
the question index by 1; consequently, over any sequence of messages,
the final tally sum is the initial sum plus the number of accepted
answers, and the index advances by exactly that count. -/
theorem quiz_accepted_answer_tally (questions : List Question)
    (hWF : wf_questions questions) (sess : Session) (raw : String)
    (ud' : Option Session) (raws : List String)
    (hacc : handle_answer questions (some sess) raw = (.accepted, ud')) :
    (∃ c : Cat, ud' = some ⟨sess.question_num + 1, bumpCat sess.scores c⟩ ∧
      Tally.sum (bumpCat sess.scores c) = Tally.sum sess.scores + 1) ∧
    (∃ f n, run_answers questions (some sess) raws = (some f, n) ∧
      Tally.sum f.scores = Tally.sum sess.scores + n ∧
      f.question_num = sess.question_num + n) := by
  constructor
  · rcases handle_answer_cases questions hWF sess raw with ⟨c, hc⟩ | hr
    · rw [hc] at hacc
      injection hacc with h1 h2
      exact ⟨c, h2.symm, bumpCat_sum sess.scores c⟩
    · rw [hr] at hacc
      simp at hacc
  · clear hacc
    induction raws generalizing sess with
    | nil => exact ⟨sess, 0, rfl, by omega, by omega⟩
    | cons r rs ih =>
      rcases handle_answer_cases questions hWF sess r with ⟨c, hc⟩ | hr
      · obtain ⟨f, n, hrun, hsum, hidx⟩ := ih ⟨sess.question_num + 1, bumpCat sess.scores c⟩
        refine ⟨f, n + 1, ?_, ?_, ?_⟩
        · simp only [run_answers, hc, hrun]
        · simp only at hsum
          rw [hsum, bumpCat_sum]
          omega
        · simp only at hidx
          omega
      · obtain ⟨f, n, hrun, hsum, hidx⟩ := ih sess
        exact ⟨f, n, by simp only [run_answers, hr, hrun], hsum, hidx⟩

/-- C2 witness: with the demo quiz data, accepting "  a " on a fresh
session bumps one counter and, over the message sequence
`["A", "nonsense", "b"]`, the sum and index track the accepted count. -/
theorem quiz_accepted_answer_tally_witness :
    wf_questions demoQuestions ∧
    handle_answer demoQuestions (some ⟨0, ⟨0, 0, 0, 0⟩⟩) "  a " =
      (.accepted, some ⟨1, ⟨1, 0, 0, 0⟩⟩) ∧
    ((∃ c : Cat, (some ⟨1, ⟨1, 0, 0, 0⟩⟩ : Option Session)
        = some ⟨(0 : Nat) + 1, bumpCat ⟨0, 0, 0, 0⟩ c⟩ ∧
      Tally.sum (bumpCat ⟨0, 0, 0, 0⟩ c) = Tally.sum ⟨0, 0, 0, 0⟩ + 1) ∧
    (∃ f n, run_answers demoQuestions (some ⟨0, ⟨0, 0, 0, 0⟩⟩) ["A", "nonsense", "b"]
        = (some f, n) ∧
      Tally.sum f.scores = Tally.sum (⟨0, 0, 0, 0⟩ : Tally) + n ∧
      f.question_num = 0 + n)) :=
  ⟨by unfold wf_questions; decide, by decide,
    quiz_accepted_answer_tally demoQuestions (by unfold wf_questions; decide) ⟨0, ⟨0, 0, 0, 0⟩⟩ "  a "
      (some ⟨1, ⟨1, 0, 0, 0⟩⟩) ["A", "nonsense", "b"] (by decide)⟩

/-- C3: the validator is total: for any raw text and any question index
of an in-progress session, it returns either the validated normalised
key (upper-cased, trimmed) or a rejection carrying the valid keys —
there is no third outcome. -/
theorem quiz_validator_total (questions : List Question) (q_num : Nat)
    (raw : String) (h : q_num < questions.length) :
    (validate_answer questions q_num raw = .valid (pyNormalize raw) ∧
      pyNormalize raw ∈ valid_keys questions q_num) ∨
    (validate_answer questions q_num raw = .rejected (valid_keys questions q_num) ∧
      pyNormalize raw ∉ valid_keys questions q_num) := by
  by_cases hm : pyNormalize raw ∈ valid_keys questions q_num
  · exact Or.inl ⟨by simp only [validate_answer, if_pos hm], hm⟩
  · exact Or.inr ⟨by simp only [validate_answer, if_neg hm], hm⟩

/-- C3 witness: garbage input on the demo data takes the rejection arm. -/
theorem quiz_validator_total_witness :
    (0 < demoQuestions.length) ∧
    ((validate_answer demoQuestions 0 " zz!@# " = .valid (pyNormalize " zz!@# ") ∧
      pyNormalize " zz!@# " ∈ valid_keys demoQuestions 0) ∨
    (validate_answer demoQuestions 0 " zz!@# "
        = .rejected (valid_keys demoQuestions 0) ∧
      pyNormalize " zz!@# " ∉ valid_keys demoQuestions 0)) :=
  ⟨by decide, quiz_validator_total demoQuestions 0 " zz!@# " (by decide)⟩

/-- C4: a raw input whose normalised form is not a valid key of the
current question is rejected with the list of valid keys, the session
(tally and index) unchanged; repeating the invalid input any number of
times still changes nothing and accepts nothing. -/
theorem quiz_rejection_no_mutation (questions : List Question) (sess : Session)
    (raw : String) (k : Nat) (hin : sess.question_num < questions.length)
    (hrej : pyNormalize raw ∉ valid_keys questions sess.question_num) :
    handle_answer questions (some sess) raw =
      (.rejected (valid_keys questions sess.question_num), some sess) ∧
    run_answers questions (some sess) (List.replicate k raw) = (some sess, 0) := by
  have h1 : handle_answer questions (some sess) raw =
      (.rejected (valid_keys questions sess.question_num), some sess) := by
    simp only [handle_answer, validate_answer, if_neg hrej]
  refine ⟨h1, ?_⟩
  induction k with
  | zero => rfl
  | succ n ih => simp only [List.replicate_succ, run_answers, h1, ih]

/-- C4 witness: the invalid input " q " on a live session is rejected
with keys A, B reported and the session untouched, even after three
retries. -/
theorem quiz_rejection_no_mutation_witness :
    ((0 : Nat) < demoQuestions.length) ∧
    (pyNormalize " q " ∉ valid_keys demoQuestions 0) ∧
    (handle_answer demoQuestions (some ⟨0, ⟨2, 3, 4, 5⟩⟩) " q " =
      (.rejected (valid_keys demoQuestions 0), some ⟨0, ⟨2, 3, 4, 5⟩⟩) ∧
    run_answers demoQuestions (some ⟨0, ⟨2, 3, 4, 5⟩⟩) (List.replicate 3 " q ") =
      (some ⟨0, ⟨2, 3, 4, 5⟩⟩, 0)) :=
  ⟨by decide, by decide,
    quiz_rejection_no_mutation demoQuestions ⟨0, ⟨2, 3, 4, 5⟩⟩ " q " 3
      (by decide) (by decide)⟩

/-- C10: when the accepted answer's option lookup yields no usable
`score_type` (lookup misses, or the stored value is the empty, falsy
string), the index still advances by 1 while the tally is left exactly
as it was: the answer is consumed without being scored. -/
theorem quiz_unscored_answer_advances (questions : List Question)
    (sess : Session) (raw : String)
    (hval : pyNormalize raw ∈ valid_keys questions sess.question_num)
    (hns : get_score_type_for_key questions sess.question_num (pyNormalize raw)
        = none ∨
      get_score_type_for_key questions sess.question_num (pyNormalize raw)
        = some "") :
    handle_answer questions (some sess) raw =
      (.accepted, some ⟨sess.question_num + 1, sess.scores⟩) := by
  rcases hns with h | h
  · simp only [handle_answer, validate_answer, if_pos hval, h]
  · simp only [handle_answer, validate_answer, if_pos hval, h, if_pos rfl, if_true]

/-- C10 witness: on data whose only option stores an empty `score_type`,
the accepted answer "a" advances the index from 0 to 1 and leaves the
tally {2,3,4,5} untouched. -/
theorem quiz_unscored_answer_advances_witness :
    (pyNormalize "a" ∈ valid_keys demoFalsyQuestions 0) ∧
    (get_score_type_for_key demoFalsyQuestions 0 (pyNormalize "a") = none ∨
      get_score_type_for_key demoFalsyQuestions 0 (pyNormalize "a") = some "") ∧
    handle_answer demoFalsyQuestions (some ⟨0, ⟨2, 3, 4, 5⟩⟩) "a" =
      (.accepted, some ⟨1, ⟨2, 3, 4, 5⟩⟩) :=
  ⟨by decide, Or.inr (by decide),
    quiz_unscored_answer_advances demoFalsyQuestions ⟨0, ⟨2, 3, 4, 5⟩⟩ "a"
      (by decide) (Or.inr (by decide))⟩
